import Mathlib

set_option maxRecDepth 1000000

/-!
Verification development for the `dropbox_sqlite_ext` extraction-and-locking
module (`dropbox_sqlite_ext/__init__.py`).  The Python source is shallowly
embedded: pure computations become Lean functions, the stateful
`_win32_extract` procedure becomes a function from an environment (an oracle
fixing the outcome of every OS call) and a memo state to an event trace plus
an `Except` result, and the in-process locking discipline of `dll_filename`
becomes a small labelled transition system.  Machine integers are `Nat` with
explicit `% 2 ^ 32` where overflow matters.
-/

namespace DropboxSqliteExt

/-! ## Windows error codes used by the source (winerror constants) -/

def ERROR_FILE_NOT_FOUND : Nat := 2
def ERROR_ACCESS_DENIED : Nat := 5
def ERROR_SHARING_VIOLATION : Nat := 32
def ERROR_FILE_EXISTS : Nat := 80

/-! ## PayloadIdentity: `uuid.uuid5` (RFC 4122 name-based, SHA-1)

Source lines 143-145:
  `ns_uuid = uuid.UUID('125626a0-9d3a-4aeb-b2ed-5770cb0665cc')`
  `dll_uuid = uuid.uuid5(ns_uuid, "%s.%s" % (self.package_name, self.dll_name))`
  `tmp_prefix = "%s.{%s}.tmp" % (self.dll_name, dll_uuid)`
`uuid5` hashes the namespace bytes followed by the name bytes with SHA-1,
keeps the first 16 bytes, and forces the version nibble to 5 and the RFC 4122
variant bits.  SHA-1 is implemented here in full so that the identity really
is the deterministic hash the source computes, not an abstract stand-in. -/

def w32 (x : Nat) : Nat := x % 2 ^ 32

def rotl (n x : Nat) : Nat := w32 ((x <<< n) ||| (x >>> (32 - n)))

def sha1F (t b c d : Nat) : Nat :=
  if t < 20 then (b &&& c) ||| ((b ^^^ 0xFFFFFFFF) &&& d)
  else if t < 40 then b ^^^ c ^^^ d
  else if t < 60 then (b &&& c) ||| (b &&& d) ||| (c &&& d)
  else b ^^^ c ^^^ d

def sha1K (t : Nat) : Nat :=
  if t < 20 then 0x5A827999
  else if t < 40 then 0x6ED9EBA1
  else if t < 60 then 0x8F1BBCDC
  else 0xCA62C1D6

/-- Big-endian 8-byte encoding of the message bit length. -/
def lenBytes (bitLen : Nat) : List Nat :=
  (List.range 8).map fun i => (bitLen >>> (8 * (7 - i))) % 256

/-- Standard SHA-1 padding: 0x80, zeros to 56 mod 64, then the bit length. -/
def sha1Pad (msg : List Nat) : List Nat :=
  let z := (183 - msg.length % 64) % 64
  msg ++ 0x80 :: List.replicate z 0 ++ lenBytes (8 * msg.length)

/-- Group bytes four at a time into big-endian 32-bit words. -/
def bytesToWords : List Nat → List Nat
  | a :: b :: c :: d :: rest => (((a * 256 + b) * 256 + c) * 256 + d) :: bytesToWords rest
  | _ => []

/-- One step of the SHA-1 message-schedule extension. -/
def extendStep (ws : List Nat) : List Nat :=
  let n := ws.length
  ws ++ [rotl 1 (ws.getD (n - 3) 0 ^^^ ws.getD (n - 8) 0 ^^^
                 ws.getD (n - 14) 0 ^^^ ws.getD (n - 16) 0)]

/-- Extend the 16 chunk words to the 80 schedule words. -/
def extendTo80 (ws : List Nat) : List Nat :=
  (List.range 64).foldl (fun acc _ => extendStep acc) ws

/-- One of the 80 SHA-1 rounds. -/
def sha1Round (ws : List Nat) (st : Nat × Nat × Nat × Nat × Nat) (t : Nat) :
    Nat × Nat × Nat × Nat × Nat :=
  let (a, b, c, d, e) := st
  (w32 (rotl 5 a + sha1F t b c d + e + sha1K t + ws.getD t 0), a, rotl 30 b, c, d)

/-- Process one 64-byte chunk, updating the five hash words. -/
def processChunk (h : Nat × Nat × Nat × Nat × Nat) (chunk : List Nat) :
    Nat × Nat × Nat × Nat × Nat :=
  let ws := extendTo80 (bytesToWords chunk)
  let (h0, h1, h2, h3, h4) := h
  let (a, b, c, d, e) := (List.range 80).foldl (sha1Round ws) h
  (w32 (h0 + a), w32 (h1 + b), w32 (h2 + c), w32 (h3 + d), w32 (h4 + e))

/-- Split the padded message into 64-byte chunks (fuelled by length). -/
def chunksAux : Nat → List Nat → List (List Nat)
  | 0, _ => []
  | _, [] => []
  | n + 1, l => l.take 64 :: chunksAux n (l.drop 64)

def chunks (l : List Nat) : List (List Nat) := chunksAux l.length l

/-- Big-endian 4-byte encoding of a 32-bit word. -/
def wordBytes (x : Nat) : List Nat :=
  [(x >>> 24) % 256, (x >>> 16) % 256, (x >>> 8) % 256, x % 256]

/-- SHA-1 digest (20 bytes) of a byte list. -/
def sha1 (msg : List Nat) : List Nat :=
  let init : Nat × Nat × Nat × Nat × Nat :=
    (0x67452301, 0xEFCDAB89, 0x98BADCFE, 0x10325476, 0xC3D2E1F0)
  let (h0, h1, h2, h3, h4) := (chunks (sha1Pad msg)).foldl processChunk init
  wordBytes h0 ++ wordBytes h1 ++ wordBytes h2 ++ wordBytes h3 ++ wordBytes h4

/-- Bytes of the namespace UUID 125626a0-9d3a-4aeb-b2ed-5770cb0665cc. -/
def nsUuidBytes : List Nat :=
  [0x12, 0x56, 0x26, 0xa0, 0x9d, 0x3a, 0x4a, 0xeb,
   0xb2, 0xed, 0x57, 0x70, 0xcb, 0x06, 0x65, 0xcc]

/-- Byte encoding of a (byte-string) name, as Python 2 hashes it. -/
def strBytes (s : String) : List Nat := s.data.map Char.toNat

/-- The sixteen UUID bytes of `uuid5 ns name`: truncated SHA-1 with the
version nibble forced to 5 and the variant bits to RFC 4122. -/
def uuid5Bytes (ns : List Nat) (name : String) : List Nat :=
  ((sha1 (ns ++ strBytes name)).take 16).mapIdx fun i b =>
    if i = 6 then (b &&& 0xF) ||| 0x50
    else if i = 8 then (b &&& 0x3F) ||| 0x80
    else b

def hexDigit (n : Nat) : Char :=
  if n < 10 then Char.ofNat (48 + n) else Char.ofNat (87 + n)

def byteHex (b : Nat) : List Char := [hexDigit (b / 16), hexDigit (b % 16)]

/-- Lowercase 8-4-4-4-12 string form of sixteen UUID bytes, as `str(UUID)`. -/
def uuidStr (bytes : List Nat) : String :=
  let hx := fun (l : List Nat) => (l.map byteHex).flatten
  String.mk (hx (bytes.take 4) ++ '-' :: hx ((bytes.drop 4).take 2) ++
             '-' :: hx ((bytes.drop 6).take 2) ++ '-' :: hx ((bytes.drop 8).take 2) ++
             '-' :: hx (bytes.drop 10))

/-- The PayloadIdentity of source line 144: `uuid5(ns_uuid, package + "." + dll)`. -/
def dllUuid (packageName dllName : String) : String :=
  uuidStr (uuid5Bytes nsUuidBytes (packageName ++ "." ++ dllName))

/-- Source line 145: the temp-file prefix embedding the identity. -/
def tmpPrefixOf (packageName dllName : String) : String :=
  dllName ++ ".\x7b" ++ dllUuid packageName dllName ++ "\x7d.tmp"

/-- The module's concrete values: both names are the package name itself. -/
def thePackageName : String := "dropbox_sqlite_ext"
def theDllName : String := "dropbox_sqlite_ext"
def tmpPrefixVal : String := tmpPrefixOf thePackageName theDllName

/-- Source line 146 and line 75: the lock suffix and the win32 dll suffix. -/
def lckSuffixVal : String := ".lck"
def dllSuffixWin : String := ".dll"

/-! ## Exceptions and the event trace -/

/-- The Python exceptions the embedded code can raise or handle.
`winError` stands for both `WindowsError` and `pywintypes.error` carrying a
winerror code; `otherError` is any exception outside those classes. -/
inductive PyExc where
  | winError (code : Nat)
  | ioError
  | notImplementedError
  | valueErrorNoMatch (basename : String)
  | assertionTooManyRetries
  | brokenTempDir (dir : String)
  | otherError
  deriving DecidableEq

/-- Observable filesystem and loader calls, tagged by call site.
`scanUnlink` is an `os.unlink` issued by the stale-artifact scan
(lines 194 and 214), `sanityUnlink` the one issued by the lock sanity check
(line 251).  `writeBytes` records the bytes copied into the file. -/
inductive Event where
  | scanUnlink (path : String)
  | createLockFile (path : String)
  | createDllFile (path : String)
  | sanityUnlink (path : String)
  | existsCheck (path : String)
  | writeBytes (path : String) (contents : List Nat)
  | closeFile (path : String)
  | loadLib (path : String)
  | freeLib (path : String)
  deriving DecidableEq

/-! ## The name-mapping regexes (source lines 147-166)

`dll_regex`/`lck_regex` are `^(<escaped prefix>.*)<escaped suffix>$` with
re.I and re.S: the prefix and suffix are literal, matched case-insensitively,
and group 1 is everything before the suffix. -/

def lowerChars (s : String) : List Char := s.data.map Char.toLower

/-- Executable prefix test on character lists. -/
def listPref : List Char → List Char → Bool
  | [], _ => true
  | _ :: _, [] => false
  | a :: as, b :: bs => a = b && listPref as bs

/-- Model of `re.search` on `^(pre.*)suf$` with re.I | re.S: if the basename
is pre, then anything, then suf (case-insensitively), return group 1 (the
basename without the suffix, original case); otherwise no match. -/
def regexGroup1 (pre suf basename : String) : Option String :=
  if listPref (lowerChars pre) (lowerChars basename)
      && listPref (lowerChars suf).reverse (lowerChars basename).reverse
      && decide (pre.data.length + suf.data.length ≤ basename.data.length) then
    some (String.mk (basename.data.take (basename.data.length - suf.data.length)))
  else none

def pathJoin (dir basename : String) : String := dir ++ "\\" ++ basename

/-- Source lines 150-157: map a dll basename to its paired lock filename.
The source passes full paths and splits them; every call site builds the
path as `os.path.join(temp_dir, basename)`, so the embedding takes the
directory and basename separately. -/
def dll_to_lck (pre dllSuf lckSuf dir basename : String) : Except PyExc String :=
  match regexGroup1 pre dllSuf basename with
  | some g1 => .ok (pathJoin dir (g1 ++ lckSuf))
  | none => .error (.valueErrorNoMatch basename)

/-- Source lines 159-166: map a lock basename to its paired dll filename. -/
def lck_to_dll (pre dllSuf lckSuf dir basename : String) : Except PyExc String :=
  match regexGroup1 pre lckSuf basename with
  | some g1 => .ok (pathJoin dir (g1 ++ dllSuf))
  | none => .error (.valueErrorNoMatch basename)

/-! ## Oracle outcomes for the OS calls -/

/-- Outcome of an `os.unlink` call: success, a `WindowsError` carrying a
winerror code, or an exception that is not a `WindowsError` (which the
per-candidate handlers at lines 195 and 215 do not catch). -/
inductive UnlinkOutcome where
  | ok
  | winErr (code : Nat)
  | exc
  deriving DecidableEq

/-- Outcome of the `CreateFileW(..., CREATE_NEW, ...)` call at line 240:
success, a name collision (ERROR_FILE_EXISTS), or another winapi error. -/
inductive CreateOutcome where
  | ok
  | existsCollision
  | otherErr (code : Nat)
  deriving DecidableEq

/-- Outcome of `win32api.LoadLibrary` at line 279. -/
inductive LoadOutcome where
  | ok
  | err (code : Nat)
  deriving DecidableEq

/-- Outcome of the read+execute `CreateFileW` inside
`can_read_and_execute` (lines 168-177). -/
inductive RexecOutcome where
  | ok
  | accessDenied
  | otherErr (code : Nat)
  deriving DecidableEq

/-- Source lines 168-177: open for GENERIC_READ|GENERIC_EXECUTE; success
means readable and executable, ERROR_ACCESS_DENIED means not, and any other
winapi error is re-raised. -/
def can_read_and_execute (o : RexecOutcome) : Except PyExc Bool :=
  match o with
  | .ok => .ok true
  | .accessDenied => .ok false
  | .otherErr c => .error (.winError c)

/-! ## StaleArtifactScanner (source lines 183-226) -/

/-- Environment of the scan: the `os.listdir` result (or a raised
exception), and the outcome of `os.unlink` per path. -/
structure ScanEnv where
  listing : Except PyExc (List String)
  unlink : String → UnlinkOutcome

/-- Second half of one candidate, lines 211-223: try to delete the dll;
ERROR_FILE_NOT_FOUND means already gone, any other `WindowsError` is logged
and the loop continues, and a non-`WindowsError` escapes to the outer
handler. -/
def scanDeleteDll (u : String → UnlinkOutcome) (lockfilename filename : String) :
    List Event × Except PyExc Unit :=
  match u filename with
  | .exc => ([.scanUnlink lockfilename, .scanUnlink filename], .error .otherError)
  | _ => ([.scanUnlink lockfilename, .scanUnlink filename], .ok ())

/-- One matching candidate, lines 188-223: delete the lock file first.
Success falls through to the dll delete; ERROR_FILE_NOT_FOUND is treated as
already clean and also falls through; ERROR_SHARING_VIOLATION means a live
holder, so the candidate is skipped with both files untouched; any other
`WindowsError` is logged and skipped; a non-`WindowsError` escapes. -/
def scanOne (u : String → UnlinkOutcome) (dir g1 lckSuf basename : String) :
    List Event × Except PyExc Unit :=
  let filename := pathJoin dir basename
  let lockfilename := pathJoin dir (g1 ++ lckSuf)
  match u lockfilename with
  | .ok => scanDeleteDll u lockfilename filename
  | .winErr c =>
    if c = ERROR_FILE_NOT_FOUND then scanDeleteDll u lockfilename filename
    else ([.scanUnlink lockfilename], .ok ())
  | .exc => ([.scanUnlink lockfilename], .error .otherError)

/-- The scan loop over the directory listing, lines 185-223.  Entries that
do not match `dll_regex` are skipped.  An escaping exception aborts the
remaining candidates (it is caught only at the outer boundary). -/
def scanCandidates (u : String → UnlinkOutcome) (pre dllSuf lckSuf dir : String) :
    List String → List Event × Except PyExc Unit
  | [] => ([], .ok ())
  | b :: rest =>
    match regexGroup1 pre dllSuf b with
    | none => scanCandidates u pre dllSuf lckSuf dir rest
    | some g1 =>
      match scanOne u dir g1 lckSuf b with
      | (ev, .ok _) =>
        let r := scanCandidates u pre dllSuf lckSuf dir rest
        (ev ++ r.1, r.2)
      | (ev, .error e) => (ev, .error e)

/-- The body of the outer `try` at line 184: list the directory, then scan. -/
def scanBody (s : ScanEnv) (pre dllSuf lckSuf dir : String) :
    List Event × Except PyExc Unit :=
  match s.listing with
  | .error e => ([], .error e)
  | .ok names => scanCandidates s.unlink pre dllSuf lckSuf dir names

/-- Lines 184 and 224-225: the whole pass sits in `try: ... except:` with a
bare except, so every escaping exception is swallowed (logged) at this
boundary and the extraction continues. -/
def cleanupPass (s : ScanEnv) (pre dllSuf lckSuf dir : String) : List Event :=
  (scanBody s pre dllSuf lckSuf dir).1

/-! ## ArtifactWriter: the creation loop (source lines 230-246) -/

/-- Per-extraction environment for everything after the scan. -/
structure BodyEnv where
  token : Nat → String
  createDll : Nat → CreateOutcome
  sanityUnlink : UnlinkOutcome
  lockStillExists : Bool
  writeFails : Bool
  payload : List Nat
  load : LoadOutcome
  readExec : RexecOutcome

/-- Outcome of one iteration of a Python loop body that contains no
`continue` and catches nothing: it either reaches `break` with a value or an
exception escapes. -/
inductive IterOutcome (α : Type) where
  | brk (events : List Event) (a : α)
  | raised (events : List Event) (e : PyExc)

/-- One iteration of the loop at lines 231-244.  `NamedTemporaryFile`
creates `dir/(pre ++ token ++ ".lck")` (the stdlib picks a fresh random
token, so this call itself does not collide), `lck_to_dll` derives the dll
name, and `CreateFileW(CREATE_NEW)` either succeeds or raises.  The
iteration ends in the unconditional `break` at line 244 on success, and an
uncaught exception otherwise: there is no path to a next iteration. -/
def createIter (env : BodyEnv) (pre lckSuf dllSuf dir : String) (i : Nat) :
    IterOutcome (String × String) :=
  let lockbase := pre ++ env.token i ++ lckSuf
  let lockfilename := pathJoin dir lockbase
  match lck_to_dll pre dllSuf lckSuf dir lockbase with
  | .error e => .raised [.createLockFile lockfilename] e
  | .ok dllfilename =>
    match env.createDll i with
    | .ok => .brk [.createLockFile lockfilename, .createDllFile dllfilename]
               (lockfilename, dllfilename)
    | .existsCollision =>
      .raised [.createLockFile lockfilename] (.winError ERROR_FILE_EXISTS)
    | .otherErr c => .raised [.createLockFile lockfilename] (.winError c)

/-- Python `for i in range(start, start+fuel): body else: raise exc`
semantics for a body without `continue`: iterations run in order, a `break`
yields the value, an exception propagates, and exhausting the range runs the
`else` clause, which at line 246 raises
`AssertionError("Too many retries ...")`. -/
def forElse {α : Type} (body : Nat → IterOutcome α) (elseExc : PyExc) :
    Nat → Nat → List Event × Except PyExc α
  | _, 0 => ([], .error elseExc)
  | i, _ + 1 =>
    match body i with
    | .brk ev a => (ev, .ok a)
    | .raised ev e => (ev, .error e)

/-! ## LoadProbe (source lines 276-300) -/

/-- Lines 276-300: try `LoadLibrary`.  Success frees the handle at once and
keeps nothing.  On failure with ERROR_ACCESS_DENIED the supplementary
permission check runs: if it confirms missing read+execute, the
distinguished `BrokenTempDirError` carrying the directory is raised; if the
file is readable the original error is re-raised; if the check itself hits
another winapi error, that error escapes.  On any other failure code the
condition short-circuits and the original error is re-raised unchanged. -/
def loadProbe (load : LoadOutcome) (rexec : RexecOutcome) (dir dllfilename : String) :
    List Event × Except PyExc Unit :=
  match load with
  | .ok => ([.loadLib dllfilename, .freeLib dllfilename], .ok ())
  | .err c =>
    if c = ERROR_ACCESS_DENIED then
      match can_read_and_execute rexec with
      | .ok false => ([.loadLib dllfilename], .error (.brokenTempDir dir))
      | .ok true => ([.loadLib dllfilename], .error (.winError c))
      | .error e2 => ([.loadLib dllfilename], .error e2)
    else ([.loadLib dllfilename], .error (.winError c))

/-! ## The post-scan body and `_win32_extract` (source lines 227-308) -/

/-- Everything after the cleanup pass: create the pair (230-246), sanity
check the lock (248-261: a successful delete or a missing file is only
reported, a sharing violation is the expected case, any other
`WindowsError` is logged, and a non-`WindowsError` escapes), write and
close the dll (268-274), then probe it (276-300).  Returns the pair of
filenames on success. -/
def extractBody (b : BodyEnv) (dir : String) :
    List Event × Except PyExc (String × String) :=
  match forElse (createIter b tmpPrefixVal lckSuffixVal dllSuffixWin dir)
      .assertionTooManyRetries 0 10 with
  | (ev, .error e) => (ev, .error e)
  | (ev, .ok (lockfilename, dllfilename)) =>
    match b.sanityUnlink with
    | .exc => (ev ++ [.sanityUnlink lockfilename], .error .otherError)
    | _ =>
      let ev2 := ev ++ [.sanityUnlink lockfilename, .existsCheck lockfilename]
      if b.writeFails then (ev2, .error .ioError)
      else
        let ev3 := ev2 ++ [.writeBytes dllfilename b.payload, .closeFile dllfilename]
        match loadProbe b.load b.readExec dir dllfilename with
        | (evp, .ok _) => (ev3 ++ evp, .ok (lockfilename, dllfilename))
        | (evp, .error e) => (ev3 ++ evp, .error e)

/-- Whole-extraction environment: the scan oracle, the body oracle, and the
temp directory (line 180). -/
structure ExtractEnv where
  scan : ScanEnv
  body : BodyEnv
  tempDir : String

/-- Source lines 118-308 (`_win32_extract`): run the advisory cleanup pass,
whose outcome nothing downstream reads, then the authoritative body.  On
success the caller memoizes the filenames; an exception leaves the memo
untouched (the two assignments at lines 303 and 306 are the last statements
of the procedure). -/
def win32Extract (env : ExtractEnv) : List Event × Except PyExc (String × String) :=
  let scanEv := cleanupPass env.scan tmpPrefixVal dllSuffixWin lckSuffixVal env.tempDir
  let r := extractBody env.body env.tempDir
  (scanEv ++ r.1, r.2)

/-! ## ExtractionCoordinator: `dll_filename` (source lines 91-106) -/

/-- The memoized fields of the singleton object (lines 45-46). -/
structure MemoState where
  extracted_lockfile : Option String
  extracted_filename : Option String
  deriving DecidableEq

def initialMemo : MemoState := ⟨none, none⟩

/-- Source lines 91-106.  `direct` is the `pkg_resources.resource_filename`
result: a path, or `none` when it raises `NotImplementedError` (the py2exe
case).  `platformWin` is `sys.platform.startswith("win")`.  Under the lock:
a set memo is returned at once; otherwise on Windows `_win32_extract` runs
and its success fills the memo; elsewhere the `NotImplementedError` is
re-raised.  An escaping exception leaves the memo unchanged. -/
def dll_filename (st : MemoState) (direct : Option String) (platformWin : Bool)
    (env : ExtractEnv) : List Event × Except PyExc String × MemoState :=
  match direct with
  | some p => ([], .ok p, st)
  | none =>
    match st.extracted_filename with
    | some f => ([], .ok f, st)
    | none =>
      if platformWin then
        match win32Extract env with
        | (ev, .ok (lck, dll)) => (ev, .ok dll, ⟨some lck, some dll⟩)
        | (ev, .error e) => (ev, .error e, st)
      else ([], .error .notImplementedError, st)

/-! ## Trace predicates -/

def isWrite : Event → Bool
  | .writeBytes _ _ => true
  | _ => false

/-- A write event carrying exactly the full payload. -/
def isWriteFull (payload : List Nat) : Event → Bool
  | .writeBytes _ b => b = payload
  | _ => false

def isClose : Event → Bool
  | .closeFile _ => true
  | _ => false

def isLoad : Event → Bool
  | .loadLib _ => true
  | _ => false

def isSanity : Event → Bool
  | .sanityUnlink _ => true
  | _ => false

def isCreateDllEv : Event → Bool
  | .createDllFile _ => true
  | _ => false

/-- In the trace, every `q` event is strictly preceded by some `p` event:
scanning left to right, a `q` before the first `p` refutes it, and once a
`p` is seen everything later is fine. -/
def precedesB (p q : Event → Bool) : List Event → Bool
  | [] => true
  | e :: rest => if q e then false else if p e then true else precedesB p q rest

/-! ## Concrete environments used by witnesses and counterexamples -/

/-- An empty temp directory and unlinks that succeed. -/
def scanEnvEmpty : ScanEnv := ⟨.ok [], fun _ => .ok⟩

/-- A body in which every OS call behaves: fresh token, exclusive creates
succeed, the sanity unlink fails with the expected sharing violation, the
write works, and the probe load works. -/
def bodyEnvOk : BodyEnv :=
  ⟨fun _ => "abc", fun _ => .ok, .winErr ERROR_SHARING_VIOLATION, true, false, [1, 2], .ok, .ok⟩

def envOk : ExtractEnv := ⟨scanEnvEmpty, bodyEnvOk, "T"⟩

def lckOk : String := pathJoin "T" (tmpPrefixVal ++ "abc" ++ lckSuffixVal)
def dllOk : String := pathJoin "T" (tmpPrefixVal ++ "abc" ++ dllSuffixWin)

/-- The trace of a fully successful extraction in `envOk`. -/
def evOk : List Event :=
  [.createLockFile lckOk, .createDllFile dllOk, .sanityUnlink lckOk, .existsCheck lckOk,
   .writeBytes dllOk [1, 2], .closeFile dllOk, .loadLib dllOk, .freeLib dllOk]

/-- An environment in which every `CreateFileW(CREATE_NEW)` attempt on the
dll name collides with an existing file. -/
def envCollide : ExtractEnv :=
  ⟨scanEnvEmpty, { bodyEnvOk with createDll := fun _ => .existsCollision }, "T"⟩

/-! ## In-process serialization of `dll_filename` (source lines 43-46, 96-106)

The critical section `with self._lock:` is embedded as a labelled transition
system over the threads of one process.  A thread acquires the lock (only
when free), reads the memo, either returns the cached path or performs the
extraction and then returns, and releases the lock on return.  The k-th
extraction ever performed in the process yields `pathOf k`, so distinct
extractions could yield distinct paths; the claim is that the lock-guarded
memo admits only one. -/

inductive PC where
  | idle
  | haveLock
  | extracting
  | didExtract
  | finished
  deriving DecidableEq

structure CState where
  lock : Option Nat
  memo : Option String
  count : Nat
  pc : Nat → PC
  res : Nat → Option String

def initState : CState := ⟨none, none, 0, fun _ => .idle, fun _ => none⟩

/-- One atomic step of some thread `t`. -/
inductive CStep (pathOf : Nat → String) : CState → CState → Prop where
  | acquire (s : CState) (t : Nat) :
      s.lock = none → s.pc t = .idle →
      CStep pathOf s { s with lock := some t, pc := Function.update s.pc t .haveLock }
  | hitReturn (s : CState) (t : Nat) (p : String) :
      s.pc t = .haveLock → s.lock = some t → s.memo = some p →
      CStep pathOf s { s with lock := none, pc := Function.update s.pc t .finished,
                              res := Function.update s.res t (some p) }
  | missBegin (s : CState) (t : Nat) :
      s.pc t = .haveLock → s.lock = some t → s.memo = none →
      CStep pathOf s { s with pc := Function.update s.pc t .extracting }
  | extractFinish (s : CState) (t : Nat) :
      s.pc t = .extracting → s.lock = some t →
      CStep pathOf s { s with memo := some (pathOf s.count), count := s.count + 1,
                              pc := Function.update s.pc t .didExtract }
  | extractReturn (s : CState) (t : Nat) (p : String) :
      s.pc t = .didExtract → s.lock = some t → s.memo = some p →
      CStep pathOf s { s with lock := none, pc := Function.update s.pc t .finished,
                              res := Function.update s.res t (some p) }

/-- States reachable from the all-idle initial state. -/
def CReach (pathOf : Nat → String) (s : CState) : Prop :=
  Relation.ReflTransGen (CStep pathOf) initState s

/-- The inductive invariant of the coordinator. -/
structure CInv (pathOf : Nat → String) (s : CState) : Prop where
  memoNone : s.memo = none → s.count = 0
  memoSome : ∀ p, s.memo = some p → p = pathOf 0 ∧ s.count = 1
  lockDisc : ∀ t, s.pc t = .haveLock ∨ s.pc t = .extracting ∨ s.pc t = .didExtract →
    s.lock = some t
  extrNone : ∀ t, s.pc t = .extracting → s.memo = none
  resOk : ∀ t p, s.res t = some p → p = pathOf 0
  resMemo : ∀ t p, s.res t = some p → s.memo = some p
  finRes : ∀ t, s.pc t = .finished → s.res t = some (pathOf 0)

/-! ## Concrete values for witnesses -/

/-- Unlink oracle: every delete succeeds. -/
def uOk : String → UnlinkOutcome := fun _ => .ok

/-- Unlink oracle: every delete reports the file already gone. -/
def uGone : String → UnlinkOutcome := fun _ => .winErr ERROR_FILE_NOT_FOUND

/-- Unlink oracle: every delete reports a sharing violation (file in use). -/
def uBusy : String → UnlinkOutcome := fun _ => .winErr ERROR_SHARING_VIOLATION

def pathOfW : Nat → String := fun _ => "P"

/-- A four-step run of one thread through the coordinator: acquire the lock,
observe the empty memo, extract, return the fresh path. -/
def s1w : CState :=
  { initState with lock := some 0, pc := Function.update initState.pc 0 .haveLock }
def s2w : CState := { s1w with pc := Function.update s1w.pc 0 .extracting }
def s3w : CState :=
  { s2w with memo := some (pathOfW s2w.count), count := s2w.count + 1,
             pc := Function.update s2w.pc 0 .didExtract }
def s4w : CState :=
  { s3w with lock := none, pc := Function.update s3w.pc 0 .finished,
             res := Function.update s3w.res 0 (some "P") }

/-- The lock filename the writer produces on its (only reachable) first
iteration. -/
def lname (b : BodyEnv) (dir : String) : String :=
  pathJoin dir (tmpPrefixVal ++ b.token 0 ++ lckSuffixVal)

/-- The dll filename paired with `lname`. -/
def dname (b : BodyEnv) (dir : String) : String :=
  pathJoin dir (tmpPrefixVal ++ b.token 0 ++ dllSuffixWin)

/-! # Helper lemmas -/

theorem forElse_ten {α : Type} (body : Nat → IterOutcome α) (exc : PyExc) (i : Nat) :
    forElse body exc i 10 = match body i with
      | .brk ev a => (ev, .ok a)
      | .raised ev e => (ev, .error e) := rfl

theorem listPref_append (p r : List Char) : listPref p (p ++ r) = true := by
  induction p with
  | nil => rfl
  | cons a as ih => simp [listPref, ih]

/-- The regex of lines 147-148 matches `pre ++ mid ++ suf` with group 1 equal
to `pre ++ mid`, whatever the middle part is. -/
theorem regexGroup1_concat (pre mid suf : String) :
    regexGroup1 pre suf (pre ++ mid ++ suf) = some (pre ++ mid) := by
  have h1 : lowerChars (pre ++ mid ++ suf)
      = lowerChars pre ++ (lowerChars mid ++ lowerChars suf) := by
    simp [lowerChars, String.data_append]
  have h2 : (lowerChars (pre ++ mid ++ suf)).reverse
      = (lowerChars suf).reverse ++ ((lowerChars mid).reverse ++ (lowerChars pre).reverse) := by
    simp [lowerChars, String.data_append]
  have h3 : (pre ++ mid ++ suf).data = (pre.data ++ mid.data) ++ suf.data := by
    simp [String.data_append]
  have h4 : (pre ++ mid ++ suf).data.length - suf.data.length
      = (pre.data ++ mid.data).length := by
    rw [h3]; simp [List.length_append]; omega
  have h5 : (pre ++ mid ++ suf).data.take ((pre ++ mid ++ suf).data.length - suf.data.length)
      = (pre ++ mid).data := by
    rw [h4, h3, List.take_left, String.data_append]
  unfold regexGroup1
  rw [if_pos]
  · rw [h5]
  · rw [h1]
    simp only [List.reverse_append, List.append_assoc, listPref_append, Bool.true_and]
    rw [h3]
    simp only [List.length_append, decide_eq_true_eq]
    omega

/-- Corollary for the writer: `lck_to_dll` on a lock basename of the shape
the writer itself just produced succeeds and swaps the suffixes. -/
theorem lck_to_dll_concat (pre dllSuf lckSuf dir tok : String) :
    lck_to_dll pre dllSuf lckSuf dir (pre ++ tok ++ lckSuf)
      = .ok (pathJoin dir (pre ++ tok ++ dllSuf)) := by
  unfold lck_to_dll
  rw [regexGroup1_concat]

/-- One creation-loop iteration, with the regex round trip resolved. -/
theorem createIter_eq (b : BodyEnv) (pre lckSuf dllSuf dir : String) (i : Nat) :
    createIter b pre lckSuf dllSuf dir i =
      match b.createDll i with
      | .ok => .brk [.createLockFile (pathJoin dir (pre ++ b.token i ++ lckSuf)),
                     .createDllFile (pathJoin dir (pre ++ b.token i ++ dllSuf))]
                 (pathJoin dir (pre ++ b.token i ++ lckSuf),
                  pathJoin dir (pre ++ b.token i ++ dllSuf))
      | .existsCollision =>
        .raised [.createLockFile (pathJoin dir (pre ++ b.token i ++ lckSuf))]
          (.winError ERROR_FILE_EXISTS)
      | .otherErr c =>
        .raised [.createLockFile (pathJoin dir (pre ++ b.token i ++ lckSuf))]
          (.winError c) := by
  unfold createIter
  simp only [lck_to_dll_concat]

theorem precedesB_append (p q : Event → Bool) (l₁ l₂ : List Event)
    (h₁ : ∀ e ∈ l₁, p e = false ∧ q e = false) (h₂ : precedesB p q l₂ = true) :
    precedesB p q (l₁ ++ l₂) = true := by
  induction l₁ with
  | nil => simpa
  | cons a as ih =>
    have ha := h₁ a (by simp)
    simp only [List.cons_append, precedesB, ha.1, ha.2, if_false]
    exact ih fun e he => h₁ e (by simp [he])

theorem scanDeleteDll_events (u : String → UnlinkOutcome) (lockfilename filename : String) :
    ∀ e ∈ (scanDeleteDll u lockfilename filename).1, ∃ p, e = Event.scanUnlink p := by
  intro e he
  cases h : u filename <;> simp [scanDeleteDll, h] at he <;>
    rcases he with rfl | rfl <;> exact ⟨_, rfl⟩

theorem scanOne_events (u : String → UnlinkOutcome) (dir g1 lckSuf basename : String) :
    ∀ e ∈ (scanOne u dir g1 lckSuf basename).1, ∃ p, e = Event.scanUnlink p := by
  intro e he
  simp only [scanOne] at he
  cases h : u (pathJoin dir (g1 ++ lckSuf)) with
  | ok =>
    simp only [h] at he
    exact scanDeleteDll_events u _ _ e he
  | winErr c =>
    simp only [h] at he
    by_cases hc : c = ERROR_FILE_NOT_FOUND
    · rw [if_pos hc] at he
      exact scanDeleteDll_events u _ _ e he
    · rw [if_neg hc] at he
      simp at he
      exact ⟨_, he⟩
  | exc =>
    simp only [h] at he
    simp at he
    exact ⟨_, he⟩

theorem scanCandidates_events (u : String → UnlinkOutcome) (pre dllSuf lckSuf dir : String)
    (names : List String) :
    ∀ e ∈ (scanCandidates u pre dllSuf lckSuf dir names).1, ∃ p, e = Event.scanUnlink p := by
  induction names with
  | nil => intro e he; simp [scanCandidates] at he
  | cons b rest ih =>
    intro e he
    unfold scanCandidates at he
    cases hm : regexGroup1 pre dllSuf b with
    | none =>
      simp only [hm] at he
      exact ih e he
    | some g1 =>
      simp only [hm] at he
      rcases hs : scanOne u dir g1 lckSuf b with ⟨ev, r⟩
      cases r with
      | ok a =>
        simp only [hs] at he
        simp at he
        rcases he with he | he
        · exact scanOne_events u dir g1 lckSuf b e (by rw [hs]; exact he)
        · exact ih e he
      | error err =>
        simp only [hs] at he
        exact scanOne_events u dir g1 lckSuf b e (by rw [hs]; exact he)

theorem cleanupPass_events (s : ScanEnv) (pre dllSuf lckSuf dir : String) :
    ∀ e ∈ cleanupPass s pre dllSuf lckSuf dir, ∃ p, e = Event.scanUnlink p := by
  intro e he
  unfold cleanupPass scanBody at he
  cases hl : s.listing with
  | error err => rw [hl] at he; simp at he
  | ok names =>
    rw [hl] at he
    exact scanCandidates_events s.unlink pre dllSuf lckSuf dir names e he

/-! # Claim theorems -/

/-- C9: the PayloadIdentity derived from a (package name, resource name)
pair is a pure function of those inputs: any two computations over equal
inputs yield the identical identifier.  (`dllUuid` is the full uuid5
derivation of source lines 143-144, SHA-1 included; nothing in it reads any
per-run state.) -/
theorem payload_identity_deterministic (p r p' r' : String) (hp : p = p') (hr : r = r') :
    dllUuid p r = dllUuid p' r' := by
  subst hp; subst hr; rfl

theorem payload_identity_deterministic_witness :
    dllUuid "dropbox_sqlite_ext" "dropbox_sqlite_ext"
      = dllUuid "dropbox_sqlite_ext" "dropbox_sqlite_ext" :=
  payload_identity_deterministic _ _ _ _ rfl rfl

/-- Validation of the identity embedding: the computed uuid5 equals the
example recorded in the source comment at lines 132-133. -/
theorem dllUuid_matches_source_comment :
    dllUuid thePackageName theDllName = "5f3e3153-5bce-5766-8f84-3e3e7ecf0d81" := by
  decide

/-- C5: the load probe (lines 276-300): success frees the library at once
and reports success with no retained handle; an access-denied failure whose
permission check confirms missing read+execute raises the distinguished
broken-temp-directory error carrying the directory; any other load failure
(a different code, or access-denied but the file is in fact readable and
executable) re-raises the original loader error unchanged. -/
theorem load_probe_classification (load : LoadOutcome) (rexec : RexecOutcome)
    (dir dll : String) :
    (load = .ok → loadProbe load rexec dir dll = ([.loadLib dll, .freeLib dll], .ok ())) ∧
    (load = .err ERROR_ACCESS_DENIED → rexec = .accessDenied →
      loadProbe load rexec dir dll = ([.loadLib dll], .error (.brokenTempDir dir))) ∧
    (∀ c, load = .err c → (c ≠ ERROR_ACCESS_DENIED ∨ rexec = .ok) →
      loadProbe load rexec dir dll = ([.loadLib dll], .error (.winError c))) := by
  refine ⟨?_, ?_, ?_⟩
  · rintro rfl; rfl
  · rintro rfl rfl
    simp [loadProbe, can_read_and_execute]
  · rintro c rfl h
    rcases h with h | rfl
    · simp [loadProbe, h]
    · by_cases hc : c = ERROR_ACCESS_DENIED
      · subst hc; simp [loadProbe, can_read_and_execute]
      · simp [loadProbe, hc]

theorem load_probe_classification_witness :
    loadProbe .ok .ok "T" "f" = ([.loadLib "f", .freeLib "f"], .ok ()) ∧
    loadProbe (.err ERROR_ACCESS_DENIED) .accessDenied "T" "f"
      = ([.loadLib "f"], .error (.brokenTempDir "T")) ∧
    loadProbe (.err 126) .ok "T" "f" = ([.loadLib "f"], .error (.winError 126)) :=
  ⟨(load_probe_classification .ok .ok "T" "f").1 rfl,
   (load_probe_classification (.err ERROR_ACCESS_DENIED) .accessDenied "T" "f").2.1 rfl rfl,
   (load_probe_classification (.err 126) .ok "T" "f").2.2 126 rfl (.inl (by decide))⟩

/-- C2: per candidate of the stale-artifact scan (lines 188-223): a
successful lock delete proceeds to delete the library file; a lock delete
failing with file-not-found is treated as already clean and still proceeds
to delete the library file; a lock delete failing with a sharing violation
skips the candidate, touching neither file. -/
theorem scanner_candidate_policy (u : String → UnlinkOutcome) (dir g1 lckSuf basename : String) :
    (u (pathJoin dir (g1 ++ lckSuf)) = .ok →
      (scanOne u dir g1 lckSuf basename).1
        = [.scanUnlink (pathJoin dir (g1 ++ lckSuf)), .scanUnlink (pathJoin dir basename)]) ∧
    (u (pathJoin dir (g1 ++ lckSuf)) = .winErr ERROR_FILE_NOT_FOUND →
      (scanOne u dir g1 lckSuf basename).1
        = [.scanUnlink (pathJoin dir (g1 ++ lckSuf)), .scanUnlink (pathJoin dir basename)]) ∧
    (u (pathJoin dir (g1 ++ lckSuf)) = .winErr ERROR_SHARING_VIOLATION →
      scanOne u dir g1 lckSuf basename
        = ([.scanUnlink (pathJoin dir (g1 ++ lckSuf))], .ok ())) := by
  refine ⟨?_, ?_, ?_⟩
  · intro h
    simp only [scanOne, h]
    cases hu : u (pathJoin dir basename) <;> simp [scanDeleteDll, hu]
  · intro h
    simp only [scanOne, h, if_true]
    cases hu : u (pathJoin dir basename) <;> simp [scanDeleteDll, hu]
  · intro h
    simp only [scanOne, h]
    rw [if_neg (by decide)]

theorem scanner_candidate_policy_witness :
    (scanOne uOk "T" "g" ".lck" "b").1
      = [.scanUnlink (pathJoin "T" ("g" ++ ".lck")), .scanUnlink (pathJoin "T" "b")] ∧
    (scanOne uGone "T" "g" ".lck" "b").1
      = [.scanUnlink (pathJoin "T" ("g" ++ ".lck")), .scanUnlink (pathJoin "T" "b")] ∧
    scanOne uBusy "T" "g" ".lck" "b" = ([.scanUnlink (pathJoin "T" ("g" ++ ".lck"))], .ok ()) :=
  ⟨(scanner_candidate_policy uOk "T" "g" ".lck" "b").1 rfl,
   (scanner_candidate_policy uGone "T" "g" ".lck" "b").2.1 rfl,
   (scanner_candidate_policy uBusy "T" "g" ".lck" "b").2.2 rfl⟩

/-- C8: no outcome of the advisory cleanup pass, including a listing that
raises or unlinks that raise exceptions outside the handled `WindowsError`
cases, reaches the extraction caller or changes the extraction result: the
result of `_win32_extract` is identical for any two scan environments, and
in particular a scan whose every operation raises still lets the extraction
succeed. -/
theorem cleanup_failures_never_escape (s₁ s₂ : ScanEnv) (b : BodyEnv) (dir : String) :
    (win32Extract ⟨s₁, b, dir⟩).2 = (win32Extract ⟨s₂, b, dir⟩).2 ∧
    (win32Extract ⟨⟨.error .otherError, fun _ => .exc⟩, bodyEnvOk, "T"⟩).2
      = .ok (lckOk, dllOk) := by
  constructor
  · rfl
  · rfl

/-- Exhaustive shapes of the post-scan body: creation failure, sanity-check
escape, write failure, probe failure, or full success. -/
theorem extractBody_shape (b : BodyEnv) (dir : String) :
    (∃ e, extractBody b dir = ([.createLockFile (lname b dir)], .error e)) ∨
    extractBody b dir = ([.createLockFile (lname b dir), .createDllFile (dname b dir),
      .sanityUnlink (lname b dir)], .error .otherError) ∨
    extractBody b dir = ([.createLockFile (lname b dir), .createDllFile (dname b dir),
      .sanityUnlink (lname b dir), .existsCheck (lname b dir)], .error .ioError) ∨
    (∃ e, extractBody b dir = ([.createLockFile (lname b dir), .createDllFile (dname b dir),
      .sanityUnlink (lname b dir), .existsCheck (lname b dir),
      .writeBytes (dname b dir) b.payload, .closeFile (dname b dir),
      .loadLib (dname b dir)], .error e)) ∨
    extractBody b dir = ([.createLockFile (lname b dir), .createDllFile (dname b dir),
      .sanityUnlink (lname b dir), .existsCheck (lname b dir),
      .writeBytes (dname b dir) b.payload, .closeFile (dname b dir),
      .loadLib (dname b dir), .freeLib (dname b dir)],
      .ok (lname b dir, dname b dir)) := by
  unfold extractBody
  rw [forElse_ten, createIter_eq]
  unfold lname dname
  cases hc : b.createDll 0 with
  | existsCollision => exact .inl ⟨_, rfl⟩
  | otherErr c => exact .inl ⟨_, rfl⟩
  | ok =>
    cases hs : b.sanityUnlink with
    | exc => exact .inr (.inl rfl)
    | ok =>
      cases hw : b.writeFails with
      | true => exact .inr (.inr (.inl rfl))
      | false =>
        cases hl : b.load with
        | ok => exact .inr (.inr (.inr (.inr rfl)))
        | err c =>
          by_cases hcd : c = ERROR_ACCESS_DENIED
          · subst hcd
            cases hr : b.readExec with
            | ok =>
              exact .inr (.inr (.inr (.inl ⟨.winError ERROR_ACCESS_DENIED,
                by simp [loadProbe, can_read_and_execute]⟩)))
            | accessDenied =>
              exact .inr (.inr (.inr (.inl ⟨.brokenTempDir dir,
                by simp [loadProbe, can_read_and_execute]⟩)))
            | otherErr c2 =>
              exact .inr (.inr (.inr (.inl ⟨.winError c2,
                by simp [loadProbe, can_read_and_execute]⟩)))
          · refine .inr (.inr (.inr (.inl ⟨.winError c, ?_⟩)))
            simp [loadProbe, hcd]
    | winErr c =>
      cases hw : b.writeFails with
      | true => exact .inr (.inr (.inl rfl))
      | false =>
        cases hl : b.load with
        | ok => exact .inr (.inr (.inr (.inr rfl)))
        | err c' =>
          by_cases hcd : c' = ERROR_ACCESS_DENIED
          · subst hcd
            cases hr : b.readExec with
            | ok =>
              exact .inr (.inr (.inr (.inl ⟨.winError ERROR_ACCESS_DENIED,
                by simp [loadProbe, can_read_and_execute]⟩)))
            | accessDenied =>
              exact .inr (.inr (.inr (.inl ⟨.brokenTempDir dir,
                by simp [loadProbe, can_read_and_execute]⟩)))
            | otherErr c2 =>
              exact .inr (.inr (.inr (.inl ⟨.winError c2,
                by simp [loadProbe, can_read_and_execute]⟩)))
          · refine .inr (.inr (.inr (.inl ⟨.winError c', ?_⟩)))
            simp [loadProbe, hcd]

/-- Lift a `precedesB` fact over the scan prefix: the cleanup pass emits
only `scanUnlink` events. -/
theorem precedesB_scan_append (s : ScanEnv) (pre d l dir : String) (p q : Event → Bool)
    (hp : ∀ x, p (Event.scanUnlink x) = false) (hq : ∀ x, q (Event.scanUnlink x) = false)
    (l₂ : List Event) (h₂ : precedesB p q l₂ = true) :
    precedesB p q (cleanupPass s pre d l dir ++ l₂) = true := by
  apply precedesB_append
  · intro e he
    obtain ⟨x, rfl⟩ := cleanupPass_events s pre d l dir e he
    exact ⟨hp x, hq x⟩
  · exact h₂

/-- C6: in every extraction, any load of the library happens only after the
full payload has been written to it and the file has been closed, and the
close itself happens only after the full-payload write: no loader can
observe a partially written or still-open library file. -/
theorem full_write_and_close_precede_load (env : ExtractEnv) :
    precedesB (isWriteFull env.body.payload) isLoad (win32Extract env).1 = true ∧
    precedesB isClose isLoad (win32Extract env).1 = true ∧
    precedesB (isWriteFull env.body.payload) isClose (win32Extract env).1 = true := by
  obtain ⟨s, b, dir⟩ := env
  refine ⟨?_, ?_, ?_⟩ <;>
    refine precedesB_scan_append s _ _ _ _ _ _ (fun x => rfl) (fun x => rfl) _ ?_ <;>
    rcases extractBody_shape b dir with ⟨e, hb⟩ | hb | hb | ⟨e, hb⟩ | hb <;>
    rw [hb] <;>
    simp [precedesB, isWriteFull, isClose, isLoad]

/-- C7 (amended): the lock sanity-check happens after the pair creation and
before the payload copy: every payload write is preceded by the sanity
unlink, which itself is preceded by the dll creation.  (The source runs the
sanity check at lines 248-261, before the copy at lines 268-274.) -/
theorem sanity_check_between_create_and_write (env : ExtractEnv) :
    precedesB isCreateDllEv isSanity (win32Extract env).1 = true ∧
    precedesB isSanity isWrite (win32Extract env).1 = true := by
  obtain ⟨s, b, dir⟩ := env
  refine ⟨?_, ?_⟩ <;>
    refine precedesB_scan_append s _ _ _ _ _ _ (fun x => rfl) (fun x => rfl) _ ?_ <;>
    rcases extractBody_shape b dir with ⟨e, hb⟩ | hb | hb | ⟨e, hb⟩ | hb <;>
    rw [hb] <;>
    simp [precedesB, isCreateDllEv, isSanity, isWrite]

/-- C7 (counterexample to the claim as stated): in a fully successful
extraction the sanity unlink of the lock occurs with no payload write or
close before it, while the write and close do occur later, so the
sanity-check is not executed after the copy-and-close step. -/
theorem sanity_check_not_after_copy :
    precedesB isWrite isSanity (win32Extract envOk).1 = false ∧
    precedesB isClose isSanity (win32Extract envOk).1 = false ∧
    Event.sanityUnlink lckOk ∈ (win32Extract envOk).1 ∧
    Event.writeBytes dllOk [1, 2] ∈ (win32Extract envOk).1 ∧
    Event.closeFile dllOk ∈ (win32Extract envOk).1 := by
  decide

/-- C1 (code behavior at the claimed scenario): in an environment where
every exclusive create of the dll name collides, `_win32_extract` raises
the winapi file-exists error from the very first attempt - the loop body
ends in an unconditional break and wraps no handler, so no retry with a new
token ever happens and the `AssertionError` of line 246 is unreachable -
and the lock file created by the first attempt is left behind: the trace
contains its creation and no deletion of any kind. -/
theorem create_collision_no_retry_and_orphaned_lock :
    win32Extract envCollide
      = ([Event.createLockFile lckOk], .error (.winError ERROR_FILE_EXISTS)) ∧
    PyExc.winError ERROR_FILE_EXISTS ≠ .assertionTooManyRetries ∧
    (∀ e ∈ (win32Extract envCollide).1, ∃ p, e = Event.createLockFile p) := by
  have h : win32Extract envCollide
      = ([Event.createLockFile lckOk], .error (.winError ERROR_FILE_EXISTS)) := by rfl
  refine ⟨h, by decide, ?_⟩
  intro e he
  rw [h] at he
  simp at he
  exact ⟨lckOk, he⟩

/-- C3: once a call of `dll_filename` on the extraction path has returned a
path successfully, every later call returns the identical path, leaves the
memo untouched, and performs no filesystem or loader operation at all (its
event trace is empty: no scan, no create, no write, no probe). -/
theorem cached_path_reused (st : MemoState) (env₁ env₂ : ExtractEnv) (ev : List Event)
    (p : String) (st₁ : MemoState)
    (h : dll_filename st none true env₁ = (ev, .ok p, st₁)) :
    dll_filename st₁ none true env₂ = ([], .ok p, st₁) := by
  have hfin : st₁.extracted_filename = some p := by
    cases hst : st.extracted_filename with
    | some f =>
      simp only [dll_filename, hst] at h
      have h1 : Except.ok (ε := PyExc) f = Except.ok p := congrArg (fun x => x.2.1) h
      have h2 : st = st₁ := congrArg (fun x => x.2.2) h
      cases h1
      rw [← h2, hst]
    | none =>
      rcases hw : win32Extract env₁ with ⟨ev', r⟩
      cases r with
      | ok a =>
        rcases a with ⟨lck, dll⟩
        simp only [dll_filename, hst, hw, eq_self_iff_true, if_true] at h
        have h1 : Except.ok (ε := PyExc) dll = Except.ok p := congrArg (fun x => x.2.1) h
        have h2 : (⟨some lck, some dll⟩ : MemoState) = st₁ := congrArg (fun x => x.2.2) h
        cases h1
        rw [← h2]
      | error e =>
        simp only [dll_filename, hst, hw, eq_self_iff_true, if_true] at h
        have h1 : Except.error (α := String) e = Except.ok p := congrArg (fun x => x.2.1) h
        cases h1
  simp only [dll_filename, hfin]

theorem cached_path_reused_witness :
    dll_filename ⟨some lckOk, some dllOk⟩ none true envOk
      = ([], .ok dllOk, ⟨some lckOk, some dllOk⟩) :=
  cached_path_reused initialMemo envOk envOk evOk dllOk ⟨some lckOk, some dllOk⟩ (by rfl)

/-- C10: a failed extraction is not cached: when `_win32_extract` raises,
`dll_filename` propagates the error with the memo state exactly as before
the attempt, and because the memo is still empty, a subsequent call runs
the full extraction again (here: any later call whose extraction succeeds
returns that fresh result) instead of replaying the stored failure. -/
theorem failed_extraction_not_cached (st : MemoState) (env : ExtractEnv) (ev : List Event)
    (e : PyExc) (st' : MemoState) (hmemo : st.extracted_filename = none)
    (h : dll_filename st none true env = (ev, .error e, st')) :
    st' = st ∧
    (∀ (env₂ : ExtractEnv) (ev₂ : List Event) (lck dll : String),
      win32Extract env₂ = (ev₂, .ok (lck, dll)) →
      dll_filename st none true env₂ = (ev₂, .ok dll, ⟨some lck, some dll⟩)) := by
  constructor
  · rcases hw : win32Extract env with ⟨ev', r⟩
    cases r with
    | ok a =>
      rcases a with ⟨lck, dll⟩
      simp only [dll_filename, hmemo, hw, eq_self_iff_true, if_true] at h
      have h1 : Except.ok (ε := PyExc) dll = Except.error e := congrArg (fun x => x.2.1) h
      cases h1
    | error e₀ =>
      simp only [dll_filename, hmemo, hw, eq_self_iff_true, if_true] at h
      exact (congrArg (fun x => x.2.2) h).symm
  · intro env₂ ev₂ lck dll hw
    simp only [dll_filename, hmemo, hw, eq_self_iff_true, if_true]

theorem failed_extraction_not_cached_witness :
    initialMemo = initialMemo ∧
    dll_filename initialMemo none true envOk = (evOk, .ok dllOk, ⟨some lckOk, some dllOk⟩) :=
  ⟨(failed_extraction_not_cached initialMemo envCollide [Event.createLockFile lckOk]
      (.winError ERROR_FILE_EXISTS) initialMemo rfl (by rfl)).1,
   (failed_extraction_not_cached initialMemo envCollide [Event.createLockFile lckOk]
      (.winError ERROR_FILE_EXISTS) initialMemo rfl (by rfl)).2 envOk evOk lckOk dllOk (by rfl)⟩

/-! # The coordinator invariant -/

theorem cinv_init (pathOf : Nat → String) : CInv pathOf initState := by
  refine ⟨fun _ => rfl, ?_, ?_, ?_, ?_, ?_, ?_⟩
  · intro p hp; simp [initState] at hp
  · intro t ht; rcases ht with h' | h' | h' <;> cases h'
  · intro t ht; cases ht
  · intro t p hp; simp [initState] at hp
  · intro t p hp; simp [initState] at hp
  · intro t ht; cases ht

theorem cinv_step {pathOf : Nat → String} {s s' : CState}
    (h : CInv pathOf s) (hs : CStep pathOf s s') : CInv pathOf s' := by
  cases hs with
  | acquire t hl hpc =>
    refine ⟨h.memoNone, h.memoSome, ?_, ?_, h.resOk, h.resMemo, ?_⟩
    · intro u hu
      dsimp only at hu ⊢
      by_cases hut : u = t
      · subst hut; rfl
      · rw [Function.update_noteq hut] at hu
        have h2 := h.lockDisc u hu
        rw [hl] at h2
        cases h2
    · intro u hu
      dsimp only at hu ⊢
      by_cases hut : u = t
      · subst hut; rw [Function.update_same] at hu; cases hu
      · rw [Function.update_noteq hut] at hu
        exact h.extrNone u hu
    · intro u hu
      dsimp only at hu ⊢
      by_cases hut : u = t
      · subst hut; rw [Function.update_same] at hu; cases hu
      · rw [Function.update_noteq hut] at hu
        exact h.finRes u hu
  | hitReturn t p hpc hl hm =>
    refine ⟨?_, h.memoSome, ?_, ?_, ?_, ?_, ?_⟩
    · intro hn; dsimp only at hn; rw [hm] at hn; cases hn
    · intro u hu
      dsimp only at hu ⊢
      by_cases hut : u = t
      · subst hut; rw [Function.update_same] at hu
        rcases hu with h' | h' | h' <;> cases h'
      · rw [Function.update_noteq hut] at hu
        have h2 := h.lockDisc u hu
        rw [hl] at h2
        injection h2 with h3
        exact absurd h3.symm hut
    · intro u hu
      dsimp only at hu ⊢
      by_cases hut : u = t
      · subst hut; rw [Function.update_same] at hu; cases hu
      · rw [Function.update_noteq hut] at hu
        exact h.extrNone u hu
    · intro u q hq
      dsimp only at hq ⊢
      by_cases hut : u = t
      · subst hut; rw [Function.update_same] at hq
        injection hq with hq2
        subst hq2
        exact (h.memoSome p hm).1
      · rw [Function.update_noteq hut] at hq
        exact h.resOk u q hq
    · intro u q hq
      dsimp only at hq ⊢
      by_cases hut : u = t
      · subst hut; rw [Function.update_same] at hq
        injection hq with hq2
        subst hq2
        exact hm
      · rw [Function.update_noteq hut] at hq
        exact h.resMemo u q hq
    · intro u hu
      dsimp only at hu ⊢
      by_cases hut : u = t
      · subst hut
        rw [Function.update_same]
        rw [(h.memoSome p hm).1]
      · rw [Function.update_noteq hut] at hu
        rw [Function.update_noteq hut]
        exact h.finRes u hu
  | missBegin t hpc hl hm =>
    refine ⟨h.memoNone, h.memoSome, ?_, ?_, h.resOk, h.resMemo, ?_⟩
    · intro u hu
      dsimp only at hu ⊢
      by_cases hut : u = t
      · subst hut; exact hl
      · rw [Function.update_noteq hut] at hu
        exact h.lockDisc u hu
    · intro u hu
      dsimp only at hu ⊢
      by_cases hut : u = t
      · subst hut; exact hm
      · rw [Function.update_noteq hut] at hu
        exact h.extrNone u hu
    · intro u hu
      dsimp only at hu ⊢
      by_cases hut : u = t
      · subst hut; rw [Function.update_same] at hu; cases hu
      · rw [Function.update_noteq hut] at hu
        exact h.finRes u hu
  | extractFinish t hpc hl =>
    have hmem : s.memo = none := h.extrNone t hpc
    have hcnt : s.count = 0 := h.memoNone hmem
    refine ⟨?_, ?_, ?_, ?_, h.resOk, ?_, ?_⟩
    · intro hn; dsimp only at hn; cases hn
    · intro q hq
      dsimp only at hq ⊢
      injection hq with hq2
      refine ⟨?_, ?_⟩
      · rw [← hq2, hcnt]
      · show s.count + 1 = 1
        rw [hcnt]
    · intro u hu
      dsimp only at hu ⊢
      by_cases hut : u = t
      · subst hut; exact hl
      · rw [Function.update_noteq hut] at hu
        exact h.lockDisc u hu
    · intro u hu
      dsimp only at hu ⊢
      by_cases hut : u = t
      · subst hut; rw [Function.update_same] at hu; cases hu
      · rw [Function.update_noteq hut] at hu
        have h2 := h.lockDisc u (Or.inr (Or.inl hu))
        rw [hl] at h2
        injection h2 with h3
        exact absurd h3.symm hut
    · intro u q hq
      dsimp only at hq
      have h2 := h.resMemo u q hq
      rw [hmem] at h2
      cases h2
    · intro u hu
      dsimp only at hu ⊢
      by_cases hut : u = t
      · subst hut; rw [Function.update_same] at hu; cases hu
      · rw [Function.update_noteq hut] at hu
        exact h.finRes u hu
  | extractReturn t p hpc hl hm =>
    refine ⟨?_, h.memoSome, ?_, ?_, ?_, ?_, ?_⟩
    · intro hn; dsimp only at hn; rw [hm] at hn; cases hn
    · intro u hu
      dsimp only at hu ⊢
      by_cases hut : u = t
      · subst hut; rw [Function.update_same] at hu
        rcases hu with h' | h' | h' <;> cases h'
      · rw [Function.update_noteq hut] at hu
        have h2 := h.lockDisc u hu
        rw [hl] at h2
        injection h2 with h3
        exact absurd h3.symm hut
    · intro u hu
      dsimp only at hu ⊢
      by_cases hut : u = t
      · subst hut; rw [Function.update_same] at hu; cases hu
      · rw [Function.update_noteq hut] at hu
        exact h.extrNone u hu
    · intro u q hq
      dsimp only at hq ⊢
      by_cases hut : u = t
      · subst hut; rw [Function.update_same] at hq
        injection hq with hq2
        subst hq2
        exact (h.memoSome p hm).1
      · rw [Function.update_noteq hut] at hq
        exact h.resOk u q hq
    · intro u q hq
      dsimp only at hq ⊢
      by_cases hut : u = t
      · subst hut; rw [Function.update_same] at hq
        injection hq with hq2
        subst hq2
        exact hm
      · rw [Function.update_noteq hut] at hq
        exact h.resMemo u q hq
    · intro u hu
      dsimp only at hu ⊢
      by_cases hut : u = t
      · subst hut
        rw [Function.update_same]
        rw [(h.memoSome p hm).1]
      · rw [Function.update_noteq hut] at hu
        rw [Function.update_noteq hut]
        exact h.finRes u hu

theorem cinv_reach {pathOf : Nat → String} {s : CState} (h : CReach pathOf s) :
    CInv pathOf s := by
  unfold CReach at h
  induction h with
  | refl => exact cinv_init pathOf
  | tail _ hstep ih => exact cinv_step ih hstep

/-- C4: with the in-process lock of `dll_filename` embedded as a transition
system, in every reachable state of any number of threads at most one
extraction has ever been performed, every finished caller holds the path of
the first (and only) extraction, and as soon as any caller has finished,
exactly one extraction has happened.  All callers therefore receive the
identical path. -/
theorem serialized_single_extraction (pathOf : Nat → String) (s : CState)
    (h : CReach pathOf s) :
    s.count ≤ 1 ∧
    (∀ t, s.pc t = .finished → s.res t = some (pathOf 0)) ∧
    (∀ t, s.pc t = .finished → s.count = 1) := by
  have hi : CInv pathOf s := cinv_reach h
  refine ⟨?_, hi.finRes, ?_⟩
  · cases hm : s.memo with
    | none => rw [hi.memoNone hm]; exact Nat.zero_le 1
    | some p => exact le_of_eq (hi.memoSome p hm).2
  · intro t ht
    exact (hi.memoSome _ (hi.resMemo t _ (hi.finRes t ht))).2

theorem serialized_single_extraction_witness :
    s4w.count ≤ 1 ∧ s4w.res 0 = some (pathOfW 0) ∧ s4w.count = 1 := by
  have h1 : CStep pathOfW initState s1w := CStep.acquire initState 0 rfl rfl
  have h2 : CStep pathOfW s1w s2w := CStep.missBegin s1w 0 rfl rfl rfl
  have h3 : CStep pathOfW s2w s3w := CStep.extractFinish s2w 0 rfl rfl
  have h4 : CStep pathOfW s3w s4w := CStep.extractReturn s3w 0 "P" rfl rfl rfl
  have hreach : CReach pathOfW s4w :=
    Relation.ReflTransGen.tail (Relation.ReflTransGen.tail (Relation.ReflTransGen.tail
      (Relation.ReflTransGen.single h1) h2) h3) h4
  have h := serialized_single_extraction pathOfW s4w hreach
  exact ⟨h.1, h.2.1 0 rfl, h.2.2 0 rfl⟩

end DropboxSqliteExt
